import Mathlib

/-
  Verification of the weathermodels viewer (src/main.py) against its
  natural-language specification.

  The Python source is shallowly embedded below: pure functions become Lean
  functions; the GUI object's mutable attributes become an explicit `AppState`
  record threaded through the event handlers; the fetch thread's side effects
  (queue puts, HTTP requests, file writes) become an explicit trace of
  `FetchAction`s; the HTTP server's per-hour behaviour becomes an oracle
  `ok : Nat -> Bool` (true = status 200, false = any non-200 status or a
  network-level exception, which main.py treats identically); Python floats
  in progress values become exact rationals (division and multiplication by
  the same positive constants are monotone in IEEE floats exactly as in the
  rationals, and the endpoint values 100.0 are computed exactly, so every
  ordering/endpoint property proved here transfers); Python datetimes become
  absolute counts of hours (for run keys) or seconds (for the run-time
  catalog) on the proleptic Gregorian calendar that Python's datetime uses.
-/

namespace WeatherModels

/-! ### Python string helpers used by main.py -/

/-- Embeds Python's `str.split(sep)` for a one-character separator (as used
by `filename.split('_')` in display_frame): splits at every occurrence of
the separator, keeping empty pieces. -/
def pySplitAux (sep : Char) : List Char → List (List Char)
  | [] => [[]]
  | c :: rest =>
    match pySplitAux sep rest with
    | [] => [[c]]
    | s :: ss => if c = sep then [] :: s :: ss else (c :: s) :: ss

def pySplit (sep : Char) (s : String) : List String :=
  (pySplitAux sep s.toList).map (fun cs => String.mk cs)

/-- Embeds `os.path.basename` on POSIX paths without a trailing slash:
the part after the last '/'. -/
def basenameAux : List Char → List Char → List Char
  | [], acc => acc
  | c :: rest, acc =>
    if c = '/' then basenameAux rest [] else basenameAux rest (acc ++ [c])

def basename (s : String) : String := String.mk (basenameAux s.toList [])

/-- Embeds `os.path.join(dir, name)` on POSIX for a non-empty dir without a
trailing slash (the only shape main.py uses: `os.path.join("weather_images", ...)`). -/
def pyJoin (dir name : String) : String := dir ++ "/" ++ name

def digitVal (c : Char) : Nat := c.toNat - 48

def digitsVal (cs : List Char) : Nat :=
  cs.foldl (fun acc c => acc * 10 + digitVal c) 0

/-- Embeds Python's `int(s)` restricted to the plain digit strings that arise
in main.py (forecast-hour fields of file names): the numeric value of a
non-empty all-digit string, and `none` where `int` raises `ValueError`. -/
def parseDigits (s : String) : Option Nat :=
  if s.toList ≠ [] ∧ s.toList.all Char.isDigit then some (digitsVal s.toList)
  else none

/-- Decimal digits of a Nat; fuel-structured so it reduces in the kernel. -/
def natDigitsAux : Nat → Nat → List Char
  | 0, _ => []
  | _ + 1, 0 => []
  | fuel + 1, n => natDigitsAux fuel (n / 10) ++ [Char.ofNat (48 + n % 10)]

def natToString (n : Nat) : String :=
  if n = 0 then "0" else String.mk (natDigitsAux (n + 1) n)

/-- Embeds the f-string `f"{hour:03d}"`: decimal rendering zero-padded on the
left to width 3 (numbers of four or more digits are unpadded). -/
def format03 (n : Nat) : String :=
  let s := natToString n
  String.mk (List.replicate (3 - s.length) '0') ++ s

/-! ### Forecast Hour Generator (main.py lines 10-19) -/

/-- Embeds Python's `range(start, stop, step)` for a positive step:
`[start, start+step, ...)` strictly below `stop`. -/
def pyRange (start stop step : Nat) : List Nat :=
  (List.range ((stop - start + step - 1) / step)).map (fun k => start + step * k)

/-- Embeds `generate_forecast_hours(model)` from main.py:
`list(range(0, 241, 3)) + list(range(246, 385, 6))` for gfs/ecmwf_full,
`list(range(0, 85, 1))` for nam, `list(range(0, 49, 1))` for hrrr, and
`list(range(0, 241, 6))` for anything else. -/
def generate_forecast_hours (model : String) : List Nat :=
  if model = "gfs" ∨ model = "ecmwf_full" then
    pyRange 0 241 3 ++ pyRange 246 385 6
  else if model = "nam" then pyRange 0 85 1
  else if model = "hrrr" then pyRange 0 49 1
  else pyRange 0 241 6

/-- The hour lists exactly as the spec describes them (spec sections 4.1 and 8):
{0,3,6,...,240} followed by {246,252,...,384} for gfs and ecmwf_full,
{0,1,...,84} for nam, {0,1,...,48} for hrrr, {0,6,...,240} otherwise.
Stated from the spec's words, to be compared with the source embedding. -/
def spec_forecast_hours (model : String) : List Nat :=
  if model = "gfs" ∨ model = "ecmwf_full" then
    (List.range 81).map (fun k => 3 * k) ++ (List.range 24).map (fun k => 246 + 6 * k)
  else if model = "nam" then List.range 85
  else if model = "hrrr" then List.range 49
  else (List.range 41).map (fun k => 6 * k)

theorem generate_forecast_hours_eq_spec (model : String) :
    generate_forecast_hours model = spec_forecast_hours model := by
  simp only [generate_forecast_hours, spec_forecast_hours]
  split_ifs <;> decide

theorem generate_forecast_hours_pairwise (model : String) :
    List.Pairwise (· < ·) (generate_forecast_hours model) := by
  simp only [generate_forecast_hours]
  split_ifs <;> decide

theorem generate_forecast_hours_ne_nil (model : String) :
    generate_forecast_hours model ≠ [] := by
  simp only [generate_forecast_hours]
  split_ifs <;> decide

/-- C5: For every model string, generate_forecast_hours returns a strictly
increasing, duplicate-free, non-empty list: exactly {0,3,...,240} ∪
{246,252,...,384} for gfs and ecmwf_full, exactly {0,...,84} for nam,
exactly {0,...,48} for hrrr, and exactly {0,6,...,240} for every other
input. (Strict increase gives freedom from duplicates; the per-model sets
are compared against `spec_forecast_hours`, the spec's own description.) -/
theorem c5_generate_forecast_hours (model : String) :
    generate_forecast_hours model = spec_forecast_hours model ∧
    generate_forecast_hours model ≠ [] ∧
    List.Pairwise (· < ·) (generate_forecast_hours model) :=
  ⟨generate_forecast_hours_eq_spec model, generate_forecast_hours_ne_nil model,
    generate_forecast_hours_pairwise model⟩

/-! ### Run Time Catalog (main.py lines 21-33)

main.py reads `datetime.datetime.utcnow()`; the embedding takes that clock
reading as the argument `now`, a count of seconds (UTC) since the proleptic
Gregorian epoch 0001-01-01T00:00 (midnight-aligned, so `now % 86400` is the
second of the day; sub-second precision cannot affect any field the code
keeps after it zeroes minute, second and microsecond). Each dictionary entry
is modelled as a pair: the Bool is whether the display label carries the
" (Latest)" suffix (`i == 0`), and the Nat is the truncated timestamp in
seconds, which determines the display label `'%Y-%m-%d %HZ'` and the run key
`'%Y%m%d%H'` injectively (so the eight dictionary keys are distinct exactly
when the eight timestamps are). -/

/-- Embeds `generate_run_times()` from main.py, with the `utcnow()` reading
as the parameter `now` (seconds): for i in range(8), subtract i*6 hours,
floor the hour of day to a multiple of 6 (`run_hour = (hour // 6) * 6`) and
zero the sub-hour fields. -/
def generate_run_times (now : Nat) : List (Bool × Nat) :=
  (List.range 8).map (fun i =>
    let t := now - i * 21600
    (i == 0, t / 86400 * 86400 + t % 86400 / 3600 / 6 * 6 * 3600))

/-- The code's truncation (keep the day, floor the hour of day to a multiple
of 6, zero minutes and seconds) is flooring to the 6-hour grid. -/
theorem run_trunc_eq (t : Nat) :
    t / 86400 * 86400 + t % 86400 / 3600 / 6 * 6 * 3600 = t / 21600 * 21600 := by
  omega

/-- C6: For every supplied current time now (at least 42 h past the epoch, so
that the eighth subtraction does not underflow the calendar),
generate_run_times(now) returns exactly 8 entries, each timestamp truncated
down to a 6-hour boundary (hour of day in {0,6,12,18} with zeroed sub-hour
fields), timestamps strictly decreasing by exactly 6 hours = 21600 s from
most recent first (hence pairwise distinct, so the dictionary keyed by the
rendered labels really has 8 entries), with only the first entry's label
annotated as latest. -/
theorem c6_generate_run_times (now : Nat) (hnow : 151200 ≤ now) :
    (generate_run_times now).length = 8 ∧
    (generate_run_times now).map Prod.fst =
      [true, false, false, false, false, false, false, false] ∧
    List.Chain' (fun a b : Bool × Nat => a.2 = b.2 + 21600) (generate_run_times now) ∧
    List.Pairwise (fun a b : Bool × Nat => b.2 < a.2) (generate_run_times now) ∧
    (∀ e ∈ generate_run_times now,
      e.2 % 21600 = 0 ∧ (e.2 / 3600) % 24 % 6 = 0) := by
  have hrange : List.range 8 = [0, 1, 2, 3, 4, 5, 6, 7] := by decide
  refine ⟨by simp [generate_run_times], by simp [generate_run_times, hrange], ?_, ?_, ?_⟩
  · simp only [generate_run_times, hrange, List.map, List.chain'_cons, List.chain'_singleton,
      and_true]
    refine ⟨?_, ?_, ?_, ?_, ?_, ?_, ?_⟩ <;> omega
  · simp only [generate_run_times, hrange, List.map, List.pairwise_cons, List.mem_cons,
      List.mem_singleton, List.not_mem_nil, List.Pairwise.nil, and_true]
    constructor
    · rintro b (rfl | rfl | rfl | rfl | rfl | rfl | rfl | h) <;> first | omega | cases h
    constructor
    · rintro b (rfl | rfl | rfl | rfl | rfl | rfl | h) <;> first | omega | cases h
    constructor
    · rintro b (rfl | rfl | rfl | rfl | rfl | h) <;> first | omega | cases h
    constructor
    · rintro b (rfl | rfl | rfl | rfl | h) <;> first | omega | cases h
    constructor
    · rintro b (rfl | rfl | rfl | h) <;> first | omega | cases h
    constructor
    · rintro b (rfl | rfl | h) <;> first | omega | cases h
    constructor
    · rintro b (rfl | h) <;> first | omega | cases h
    exact fun _ h => h.elim
  · simp only [generate_run_times, hrange, List.map, List.mem_cons, List.not_mem_nil]
    rintro e (rfl | rfl | rfl | rfl | rfl | rfl | rfl | rfl | h) <;>
      first | (constructor <;> omega) | cases h

/-- Witness for C6 at the concrete clock reading 151200 s. -/
theorem c6_generate_run_times_witness :
    (generate_run_times 151200).length = 8 ∧
    (generate_run_times 151200).map Prod.fst =
      [true, false, false, false, false, false, false, false] :=
  ⟨(c6_generate_run_times 151200 (by decide)).1,
   (c6_generate_run_times 151200 (by decide)).2.1⟩

/-! ### Sequence Fetcher (main.py lines 35-73)

`threaded_fetch_image_sequence` is embedded as a pure function from the
per-hour server oracle `ok` (true = HTTP 200; false = any other status or a
`requests` exception, which the source counts identically) to the ordered
trace of its observable side effects: `q.put(...)` calls, `requests.get`
calls (recorded by forecast hour; the URL is a fixed injective function of
that hour), and file writes. Progress values are exact rationals (see the
header note on floats). The directory-creation step and the log prints are
not modelled. -/

inductive FetchEvent where
  | progress (value : ℚ)
  | result (run_time : String) (paths : List String)
  deriving DecidableEq

inductive FetchAction where
  | put (e : FetchEvent)
  | httpGet (hour : Nat)
  | save (path : String)
  deriving DecidableEq

/-- The events put on the queue, in order, of an action trace. -/
def eventsOf (tr : List FetchAction) : List FetchEvent :=
  tr.filterMap (fun a => match a with | .put e => some e | _ => none)

/-- The forecast hours for which an HTTP request is issued, in order. -/
def httpGets (tr : List FetchAction) : List Nat :=
  tr.filterMap (fun a => match a with | .httpGet h => some h | _ => none)

/-- The payloads of the `result` events of a trace, in order. -/
def resultsOf (tr : List FetchAction) : List (List String) :=
  tr.filterMap (fun a =>
    match a with | .put (.result _ ps) => some ps | _ => none)

/-- The file path the source builds for one frame:
`os.path.join("weather_images", f"{model}_{run_time}_{hour:03d}_{parameter}_{region}.png")`. -/
def framePath (model run_time parameter region : String) (hour : Nat) : String :=
  pyJoin "weather_images"
    (model ++ "_" ++ run_time ++ "_" ++ format03 hour ++ "_" ++ parameter ++ "_"
      ++ region ++ ".png")

/-- The `for i, hour in enumerate(forecast_hours)` loop of
threaded_fetch_image_sequence. Per iteration, exactly as the source orders
it: put a progress event of value `(i+1)/total*100`; issue the request; on
200 reset the consecutive-failure counter, write the file and append its
path; otherwise increment the counter; then `if consecutive_failures >= 3`,
put a forced progress event of 100 and break. (On the 200 branch the counter
was just reset to 0, so the source's post-attempt check cannot fire there;
the embedding therefore places it on the failure branch only.) Returns the
action trace of the loop and the final `downloaded_paths`. -/
def fetchLoop (ok : Nat → Bool) (mk : Nat → String) (total : Nat) :
    Nat → Nat → List String → List Nat → List FetchAction × List String
  | _, _, downloaded, [] => ([], downloaded)
  | i, cf, downloaded, hour :: rest =>
    let progEv := FetchAction.put (.progress (((i : ℚ) + 1) / (total : ℚ) * 100))
    if ok hour then
      let r := fetchLoop ok mk total (i + 1) 0 (downloaded ++ [mk hour]) rest
      (progEv :: .httpGet hour :: .save (mk hour) :: r.1, r.2)
    else if cf + 1 ≥ 3 then
      ([progEv, .httpGet hour, .put (.progress 100)], downloaded)
    else
      let r := fetchLoop ok mk total (i + 1) (cf + 1) downloaded rest
      (progEv :: .httpGet hour :: r.1, r.2)

/-- Embeds `threaded_fetch_image_sequence` (minus directory creation and
logging): run the loop over `generate_forecast_hours(model)` starting with
counter 0 and no paths, then put exactly one result event carrying the run
time and the accumulated paths. Returns the full action trace. -/
def threaded_fetch_image_sequence (ok : Nat → Bool)
    (model run_time parameter region : String) : List FetchAction :=
  let forecast_hours := generate_forecast_hours model
  let r := fetchLoop ok (framePath model run_time parameter region)
    forecast_hours.length 0 0 [] forecast_hours
  r.1 ++ [.put (.result run_time r.2)]

/-- After three consecutive failures the loop attempts nothing further: the
remaining hours contribute nothing to the trace, a progress event of 100 is
forced, and the accumulated paths are returned unchanged. -/
theorem fetchLoop_stop (ok : Nat → Bool) (mk : Nat → String)
    (total i cf : Nat) (downloaded : List String) (hour : Nat) (rest : List Nat)
    (hfail : ok hour = false) (hcf : 2 ≤ cf) :
    fetchLoop ok mk total i cf downloaded (hour :: rest) =
      ([FetchAction.put (.progress (((i : ℚ) + 1) / (total : ℚ) * 100)),
        FetchAction.httpGet hour, FetchAction.put (.progress 100)], downloaded) := by
  simp only [fetchLoop, hfail, Bool.false_eq_true, if_false]
  rw [if_pos (by omega)]

/-- The loop on three consecutive failing hours with counter 0: three
attempts, then stop with the paths unchanged. -/
theorem fetchLoop_three_failures (ok : Nat → Bool) (mk : Nat → String)
    (total i : Nat) (downloaded : List String) (a b c : Nat) (rest : List Nat)
    (ha : ok a = false) (hb : ok b = false) (hc : ok c = false) :
    fetchLoop ok mk total i 0 downloaded (a :: b :: c :: rest) =
      ([FetchAction.put (.progress (((i : ℚ) + 1) / (total : ℚ) * 100)),
        FetchAction.httpGet a,
        FetchAction.put (.progress (((i : ℚ) + 1 + 1) / (total : ℚ) * 100)),
        FetchAction.httpGet b,
        FetchAction.put (.progress (((i : ℚ) + 1 + 1 + 1) / (total : ℚ) * 100)),
        FetchAction.httpGet c, FetchAction.put (.progress 100)], downloaded) := by
  simp only [fetchLoop]
  simp [ha, hb, hc]

/-- C2: For every sequence of per-hour server outcomes, as soon as the
consecutive-failure counter reaches 3 the fetcher attempts no further
forecast hours, emits a progress event of 100, and the loop hands back
exactly the paths accumulated before the stop (which the single terminal
result event then carries); in particular, when every request fails, only
the first 3 forecast hours of the model are ever requested, a progress
event of 100 is emitted, and the one result event carries the empty list. -/
theorem c2_stop_rule :
    (∀ (ok : Nat → Bool) (mk : Nat → String) (total i cf : Nat)
        (downloaded : List String) (hour : Nat) (rest : List Nat),
      ok hour = false → 2 ≤ cf →
      fetchLoop ok mk total i cf downloaded (hour :: rest) =
        ([FetchAction.put (.progress (((i : ℚ) + 1) / (total : ℚ) * 100)),
          FetchAction.httpGet hour, FetchAction.put (.progress 100)], downloaded)) ∧
    (∀ (model run_time parameter region : String) (ok : Nat → Bool),
      (∀ h, ok h = false) →
      httpGets (threaded_fetch_image_sequence ok model run_time parameter region) =
        (generate_forecast_hours model).take 3 ∧
      resultsOf (threaded_fetch_image_sequence ok model run_time parameter region) =
        [[]] ∧
      FetchEvent.progress 100 ∈
        eventsOf (threaded_fetch_image_sequence ok model run_time parameter region)) := by
  refine ⟨fetchLoop_stop, ?_⟩
  intro model run_time parameter region ok hfail
  obtain ⟨a, b, c, rest, hh⟩ :
      ∃ a b c rest, generate_forecast_hours model = a :: b :: c :: rest := by
    simp only [generate_forecast_hours]
    split_ifs <;> exact ⟨_, _, _, _, rfl⟩
  simp only [threaded_fetch_image_sequence, hh,
    fetchLoop_three_failures _ _ _ _ _ a b c rest (hfail a) (hfail b) (hfail c)]
  refine ⟨?_, ?_, ?_⟩ <;>
    simp [httpGets, resultsOf, eventsOf, List.take]

/-- Witness for C2: both conjuncts applied at concrete inputs (an oracle
failing every request; for the first conjunct, counter already at 2). -/
theorem c2_stop_rule_witness :
    fetchLoop (fun _ => false) (fun _ => "p") 5 3 2 ["x"] (7 :: [9]) =
      ([FetchAction.put (.progress (((3 : ℚ) + 1) / (5 : ℚ) * 100)),
        FetchAction.httpGet 7, FetchAction.put (.progress 100)], ["x"]) ∧
    httpGets (threaded_fetch_image_sequence (fun _ => false) "nam" "2024010100" "refcmp" "conus") =
      (generate_forecast_hours "nam").take 3 :=
  ⟨c2_stop_rule.1 (fun _ => false) (fun _ => "p") 5 3 2 ["x"] 7 [9] rfl (by omega),
   (c2_stop_rule.2 "nam" "2024010100" "refcmp" "conus" (fun _ => false) (fun _ => rfl)).1⟩

@[simp] theorem eventsOf_nil : eventsOf [] = [] := rfl

@[simp] theorem eventsOf_cons_put (e : FetchEvent) (tr : List FetchAction) :
    eventsOf (.put e :: tr) = e :: eventsOf tr := rfl

@[simp] theorem eventsOf_cons_get (h : Nat) (tr : List FetchAction) :
    eventsOf (.httpGet h :: tr) = eventsOf tr := rfl

@[simp] theorem eventsOf_cons_save (p : String) (tr : List FetchAction) :
    eventsOf (.save p :: tr) = eventsOf tr := rfl

theorem eventsOf_append (a b : List FetchAction) :
    eventsOf (a ++ b) = eventsOf a ++ eventsOf b := List.filterMap_append ..

@[simp] theorem httpGets_nil : httpGets [] = [] := rfl

@[simp] theorem httpGets_cons_put (e : FetchEvent) (tr : List FetchAction) :
    httpGets (.put e :: tr) = httpGets tr := rfl

@[simp] theorem httpGets_cons_get (h : Nat) (tr : List FetchAction) :
    httpGets (.httpGet h :: tr) = h :: httpGets tr := rfl

@[simp] theorem httpGets_cons_save (p : String) (tr : List FetchAction) :
    httpGets (.save p :: tr) = httpGets tr := rfl

theorem httpGets_append (a b : List FetchAction) :
    httpGets (a ++ b) = httpGets a ++ httpGets b := List.filterMap_append ..

@[simp] theorem resultsOf_nil : resultsOf [] = [] := rfl

@[simp] theorem resultsOf_cons_get (h : Nat) (tr : List FetchAction) :
    resultsOf (.httpGet h :: tr) = resultsOf tr := rfl

@[simp] theorem resultsOf_cons_save (p : String) (tr : List FetchAction) :
    resultsOf (.save p :: tr) = resultsOf tr := rfl

@[simp] theorem resultsOf_cons_progress (v : ℚ) (tr : List FetchAction) :
    resultsOf (.put (.progress v) :: tr) = resultsOf tr := rfl

@[simp] theorem resultsOf_cons_result (rt : String) (ps : List String)
    (tr : List FetchAction) :
    resultsOf (.put (.result rt ps) :: tr) = ps :: resultsOf tr := rfl

theorem resultsOf_append (a b : List FetchAction) :
    resultsOf (a ++ b) = resultsOf a ++ resultsOf b := List.filterMap_append ..

/-- The loop's final `downloaded_paths`: the paths it started with, followed
by the built path of every attempted hour the server answered 200. -/
theorem fetchLoop_paths (ok : Nat → Bool) (mk : Nat → String) (total : Nat) :
    ∀ (hours : List Nat) (i cf : Nat) (dl : List String),
      (fetchLoop ok mk total i cf dl hours).2 =
        dl ++ ((httpGets (fetchLoop ok mk total i cf dl hours).1).filter ok).map mk := by
  intro hours
  induction hours with
  | nil => intro i cf dl; simp [fetchLoop]
  | cons hour rest ih =>
    intro i cf dl
    simp only [fetchLoop]
    by_cases hok : ok hour
    · simp [hok, List.filter_cons, ih (i + 1) 0 (dl ++ [mk hour])]
    · simp only [Bool.not_eq_true] at hok
      by_cases hcf : cf + 1 ≥ 3
      · simp [hok, hcf, List.filter_cons]
      · simp [hok, hcf, List.filter_cons, ih (i + 1) (cf + 1) dl]

/-- The attempted hours form a sublist of the hours handed to the loop. -/
theorem fetchLoop_gets_sublist (ok : Nat → Bool) (mk : Nat → String) (total : Nat) :
    ∀ (hours : List Nat) (i cf : Nat) (dl : List String),
      List.Sublist (httpGets (fetchLoop ok mk total i cf dl hours).1) hours := by
  intro hours
  induction hours with
  | nil => intro i cf dl; simp [fetchLoop]
  | cons hour rest ih =>
    intro i cf dl
    simp only [fetchLoop]
    by_cases hok : ok hour
    · simpa [hok] using (ih (i + 1) 0 (dl ++ [mk hour])).cons₂ hour
    · simp only [Bool.not_eq_true] at hok
      by_cases hcf : cf + 1 ≥ 3
      · simp only [hok, Bool.false_eq_true, if_false, if_pos hcf]
        exact (List.nil_sublist rest).cons₂ hour
      · simpa [hok, hcf] using (ih (i + 1) (cf + 1) dl).cons₂ hour

/-- The loop itself never emits a result event. -/
theorem fetchLoop_no_result (ok : Nat → Bool) (mk : Nat → String) (total : Nat) :
    ∀ (hours : List Nat) (i cf : Nat) (dl : List String),
      resultsOf (fetchLoop ok mk total i cf dl hours).1 = [] := by
  intro hours
  induction hours with
  | nil => intro i cf dl; simp [fetchLoop]
  | cons hour rest ih =>
    intro i cf dl
    simp only [fetchLoop]
    by_cases hok : ok hour
    · simp [hok, ih (i + 1) 0 (dl ++ [mk hour])]
    · simp only [Bool.not_eq_true] at hok
      by_cases hcf : cf + 1 ≥ 3
      · simp [hok, hcf]
      · simp [hok, hcf, ih (i + 1) (cf + 1) dl]

/-- C7: For every model, run and sequence of per-hour server outcomes, the
single terminal result event carries a frame path for exactly the hours
that were attempted (requested before any stop) and returned HTTP 200, in
request order; those hours are strictly increasing (failed hours are simply
absent), so the resulting sequence is empty or strictly increasing in
forecast hour. -/
theorem c7_result_frames (model run_time parameter region : String) (ok : Nat → Bool) :
    resultsOf (threaded_fetch_image_sequence ok model run_time parameter region) =
      [((httpGets (threaded_fetch_image_sequence ok model run_time parameter region)).filter
          ok).map (framePath model run_time parameter region)] ∧
    List.Sublist (httpGets (threaded_fetch_image_sequence ok model run_time parameter region))
      (generate_forecast_hours model) ∧
    List.Pairwise (· < ·)
      ((httpGets (threaded_fetch_image_sequence ok model run_time parameter region)).filter
        ok) := by
  have hsub : List.Sublist
      (httpGets (threaded_fetch_image_sequence ok model run_time parameter region))
      (generate_forecast_hours model) := by
    simp only [threaded_fetch_image_sequence, httpGets_append]
    simpa using fetchLoop_gets_sublist ok (framePath model run_time parameter region)
      (generate_forecast_hours model).length (generate_forecast_hours model) 0 0 []
  refine ⟨?_, hsub, ?_⟩
  · simp only [threaded_fetch_image_sequence, resultsOf_append, httpGets_append]
    simp [fetchLoop_no_result,
      fetchLoop_paths ok (framePath model run_time parameter region)
        (generate_forecast_hours model).length (generate_forecast_hours model) 0 0 []]
  · exact List.Pairwise.sublist ((List.filter_sublist _).trans hsub)
      (generate_forecast_hours_pairwise model)

/-- The progress value the source computes for attempt index i (0-based):
`(i + 1) / total_images * 100`. -/
def progVal (i total : Nat) : ℚ := ((i : Nat) + 1 : ℚ) / (total : ℚ) * 100

theorem progVal_def (i total : Nat) :
    progVal i total = ((i : ℚ) + 1) / (total : ℚ) * 100 := by
  simp [progVal]

theorem progVal_mono (i total : Nat) (h : 0 < total) :
    progVal i total ≤ progVal (i + 1) total := by
  have hT : (0 : ℚ) < (total : ℚ) := by exact_mod_cast h
  simp only [progVal]
  exact mul_le_mul_of_nonneg_right
    ((div_le_div_iff_of_pos_right hT).mpr (by push_cast; linarith)) (by norm_num)

theorem progVal_le_100 (i total : Nat) (h : i + 1 ≤ total) :
    progVal i total ≤ 100 := by
  have hT : (0 : ℚ) < (total : ℚ) := by exact_mod_cast (by omega : 0 < total)
  have hle : ((i : ℚ) + 1) ≤ (total : ℚ) := by exact_mod_cast h
  simp only [progVal]
  rw [div_mul_eq_mul_div, div_le_iff₀ hT]
  nlinarith

theorem progVal_last (i total : Nat) (h : i + 1 = total) :
    progVal i total = 100 := by
  have hT : ((total : ℚ)) ≠ 0 := by
    exact_mod_cast (by omega : total ≠ 0)
  have hv : ((i : ℚ) + 1) = (total : ℚ) := by exact_mod_cast h
  simp only [progVal]
  rw [hv, div_self hT]
  norm_num

/-- getLast? of a cons with a non-empty tail is the tail's. -/
theorem getLast?_cons_ne_nil {α : Type} (a : α) {l : List α} (h : l ≠ []) :
    (a :: l).getLast? = l.getLast? := by
  cases l with
  | nil => exact absurd rfl h
  | cons b t => rw [List.getLast?_cons_cons]

/-- Shape of the loop's event stream, starting at attempt index i with
`i + hours.length = total`: a non-empty monotone list of progress events
whose first value is `(i+1)/total*100` and whose last value is 100. -/
theorem fetchLoop_events (ok : Nat → Bool) (mk : Nat → String) (total : Nat) :
    ∀ (hours : List Nat) (i cf : Nat) (dl : List String),
      hours ≠ [] → i + hours.length = total →
      ∃ ps : List ℚ,
        eventsOf (fetchLoop ok mk total i cf dl hours).1 = ps.map FetchEvent.progress ∧
        ps.head? = some (progVal i total) ∧
        ps.getLast? = some 100 ∧
        List.Chain' (· ≤ ·) ps := by
  intro hours
  induction hours with
  | nil => intro i cf dl hne; exact absurd rfl hne
  | cons hour rest ih =>
    intro i cf dl _ htot
    have htot' : i + 1 ≤ total := by
      simp only [List.length_cons] at htot; omega
    have hpos : 0 < total := by omega
    rcases List.eq_nil_or_concat rest with hrest | _
    · subst hrest
      have h100 : progVal i total = 100 := progVal_last i total (by simpa using htot)
      simp only [fetchLoop]
      by_cases hok : ok hour
      · refine ⟨[progVal i total], ?_, rfl, by simp [h100], by simp⟩
        simp [hok, fetchLoop, progVal_def, eventsOf]
      · simp only [Bool.not_eq_true] at hok
        by_cases hcf : cf + 1 ≥ 3
        · refine ⟨[progVal i total, 100], ?_, rfl, by simp, ?_⟩
          · simp [hok, hcf, progVal_def, eventsOf]
          · simp [h100]
        · refine ⟨[progVal i total], ?_, rfl, by simp [h100], by simp⟩
          simp [hok, hcf, fetchLoop, progVal_def, eventsOf]
    · have hne2 : rest ≠ [] := by
        rename_i hcat
        obtain ⟨l, a, rfl⟩ := hcat
        exact (List.concat_ne_nil a l)
      have htot2 : (i + 1) + rest.length = total := by
        simp only [List.length_cons] at htot; omega
      simp only [fetchLoop]
      by_cases hok : ok hour
      · obtain ⟨ps, hev, hhead, hlast, hchain⟩ := ih (i + 1) 0 (dl ++ [mk hour]) hne2 htot2
        have hne3 : ps ≠ [] := by intro h; rw [h] at hhead; simp at hhead
        refine ⟨progVal i total :: ps, ?_, rfl, ?_, ?_⟩
        · simp [hok, hev, progVal_def]
        · rw [getLast?_cons_ne_nil _ hne3]; exact hlast
        · rw [List.chain'_cons']
          exact ⟨fun y hy => by
            rw [hhead] at hy
            simp only [Option.mem_def, Option.some.injEq] at hy
            rw [← hy]
            exact progVal_mono i total hpos, hchain⟩
      · simp only [Bool.not_eq_true] at hok
        by_cases hcf : cf + 1 ≥ 3
        · refine ⟨[progVal i total, 100], ?_, rfl, by simp, ?_⟩
          · simp [hok, hcf, progVal_def, eventsOf]
          · simp [progVal_le_100 i total htot']
        · obtain ⟨ps, hev, hhead, hlast, hchain⟩ := ih (i + 1) (cf + 1) dl hne2 htot2
          have hne3 : ps ≠ [] := by intro h; rw [h] at hhead; simp at hhead
          refine ⟨progVal i total :: ps, ?_, rfl, ?_, ?_⟩
          · simp [hok, hcf, hev, progVal_def]
          · rw [getLast?_cons_ne_nil _ hne3]; exact hlast
          · rw [List.chain'_cons']
            exact ⟨fun y hy => by
              rw [hhead] at hy
              simp only [Option.mem_def, Option.some.injEq] at hy
              rw [← hy]
              exact progVal_mono i total hpos, hchain⟩

/-- C8: For every fetch invocation (any model, run and per-hour outcome
sequence), the emitted event stream is a block of progress events with
monotonically non-decreasing values whose last value is 100, followed by
exactly one terminal result event, with no event of any kind after it. -/
theorem c8_event_stream (model run_time parameter region : String) (ok : Nat → Bool) :
    ∃ (ps : List ℚ) (paths : List String),
      eventsOf (threaded_fetch_image_sequence ok model run_time parameter region) =
        ps.map FetchEvent.progress ++ [FetchEvent.result run_time paths] ∧
      ps ≠ [] ∧ ps.getLast? = some 100 ∧ List.Chain' (· ≤ ·) ps := by
  obtain ⟨ps, hev, hhead, hlast, hchain⟩ :=
    fetchLoop_events ok (framePath model run_time parameter region)
      (generate_forecast_hours model).length (generate_forecast_hours model) 0 0 []
      (generate_forecast_hours_ne_nil model) (by simp)
  refine ⟨ps,
    (fetchLoop ok (framePath model run_time parameter region)
      (generate_forecast_hours model).length 0 0 [] (generate_forecast_hours model)).2,
    ?_, ?_, hlast, hchain⟩
  · simp only [threaded_fetch_image_sequence, eventsOf_append, hev]
    simp [eventsOf]
  · intro h; rw [h] at hhead; simp at hhead

/-! ### Python datetime arithmetic for display_frame (main.py lines 246-250)

`strptime(run_key, "%Y%m%d%H")` and the later `+ timedelta(hours=...)` are
embedded over absolute hour counts since 0001-01-01T00:00 on the proleptic
Gregorian calendar (exactly Python's datetime calendar). Python's datetime
is bounded by year 9999; adding a timedelta that passes that bound raises
OverflowError, which display_frame's `except` catches. -/

def isLeap (y : Nat) : Bool := y % 4 = 0 && (y % 100 ≠ 0 || y % 400 = 0)

def daysInMonth (y m : Nat) : Nat :=
  if m = 2 then (if isLeap y then 29 else 28)
  else if m = 4 ∨ m = 6 ∨ m = 9 ∨ m = 11 then 30
  else 31

def daysBeforeYear (y : Nat) : Nat :=
  365 * (y - 1) + (y - 1) / 4 - (y - 1) / 100 + (y - 1) / 400

def daysBeforeMonth (y m : Nat) : Nat :=
  [0, 31, 59, 90, 120, 151, 181, 212, 243, 273, 304, 334].getD (m - 1) 0 +
    (if 2 < m then (if isLeap y then 1 else 0) else 0)

/-- Days since 0001-01-01 of a valid civil date (Python `date.toordinal() - 1`). -/
def dayOrdinal (y m d : Nat) : Nat := daysBeforeYear y + daysBeforeMonth y m + (d - 1)

/-- First absolute hour index past `datetime.max` (the hours of 10000-01-01T00). -/
def datetimeMaxHours : Nat := 24 * dayOrdinal 10000 1 1

/-- Embeds `datetime.strptime(s, "%Y%m%d%H")` as an absolute hour count:
ten digits split 4-2-2-2, with the field validation strptime performs
(year ≥ 1, month 1..12, day 1..days-in-month, hour 0..23); `none` where
strptime raises ValueError. -/
def parseRunKey (s : String) : Option Nat :=
  let cs := s.toList
  if cs.length = 10 ∧ cs.all Char.isDigit then
    let y := digitsVal (cs.take 4)
    let mo := digitsVal ((cs.drop 4).take 2)
    let d := digitsVal ((cs.drop 6).take 2)
    let h := digitsVal ((cs.drop 8).take 2)
    if 1 ≤ y ∧ 1 ≤ mo ∧ mo ≤ 12 ∧ 1 ≤ d ∧ d ≤ daysInMonth y mo ∧ h ≤ 23 then
      some (24 * dayOrdinal y mo d + h)
    else none
  else none

/-! ### Playback Controller (main.py lines 217-284)

The WeatherApp attributes and widget contents the handlers touch, as one
record. Widget-geometry calls (packing, slider `to`-bound, progress-bar
value, button captions) and the log prints are not modelled. `tickScheduled`
is whether an `after(200, animate)` callback is pending (`animation_job`).
`imageShown`/`errorShown` are what the image label displays. The three info
labels hold the absolute hour values they render (`'%Y-%m-%d %H:%M'` is
injective on them, minutes being always zero). `decode` is an oracle for
whether `Image.open`/`ImageTk.PhotoImage` succeeds on a file. -/

structure AppState where
  imagePaths : List String := []
  currentFrameIndex : Int := 0
  sliderValue : Int := 0
  modelRunTime : Option String := none
  isPlaying : Bool := false
  tickScheduled : Bool := false
  controlsEnabled : Bool := false
  fetchEnabled : Bool := true
  imageShown : Option String := none
  runTimeLabel : Option Nat := none
  forecastHourLabel : Option Nat := none
  validTimeLabel : Option Nat := none
  errorShown : Bool := false
  warningShown : Bool := false
  deriving DecidableEq

/-- The fresh WeatherApp state as `__init__` sets it up (no sequence,
index 0, not playing, animation controls disabled). -/
def appInit : AppState := {}

/-- The metadata block inside display_frame's `try` (lines 243-247):
`parts = basename(filepath).split('_')`, `hour_str = parts[2]`
(IndexError → exception), `int(hour_str)` (ValueError → exception),
`strptime(model_run_time, ...)` (TypeError on None, ValueError on a bad key),
`run_dt + timedelta(hours=hour)` (OverflowError past year 9999). Returns the
run time's absolute hour and the parsed forecast hour, or `none` where any
step raises. -/
def display_metadata (model_run_time : Option String) (filepath : String) :
    Option (Nat × Nat) :=
  match (pySplit '_' (basename filepath)).get? 2 with
  | none => none
  | some hour_str =>
    match parseDigits hour_str with
    | none => none
    | some hour =>
      match model_run_time with
      | none => none
      | some rk =>
        match parseRunKey rk with
        | none => none
        | some run_abs =>
          if run_abs + hour < datetimeMaxHours then some (run_abs, hour) else none

/-- Embeds `display_frame(index)` (lines 234-252). Mirrors the source's
order: guard (empty list or out-of-range index → plain return), then
`current_frame_index = index`, then the slider update, and only then the
`try` block: open/render the image (the `decode` oracle), derive the
metadata, set the three info labels; any exception inside the try leaves
the fields assigned so far in place, clears the image and shows the error
text. -/
def display_frame (decode : String → Bool) (s : AppState) (index : Int) : AppState :=
  if s.imagePaths = [] ∨ ¬(0 ≤ index ∧ index < (s.imagePaths.length : Int)) then s
  else
    let s1 : AppState := { s with currentFrameIndex := index }
    let s2 : AppState :=
      if s1.sliderValue ≠ index then { s1 with sliderValue := index } else s1
    let filepath := s2.imagePaths.getD index.toNat ""
    if decode filepath then
      match display_metadata s2.modelRunTime filepath with
      | some md =>
        { s2 with
            imageShown := some filepath
            errorShown := false
            runTimeLabel := some md.1
            forecastHourLabel := some md.2
            validTimeLabel := some (md.1 + md.2) }
      | none => { s2 with imageShown := none, errorShown := true }
    else { s2 with imageShown := none, errorShown := true }

/-- Embeds `next_frame` (lines 257-260): no-op on an empty list, else
display `(current_frame_index + 1) % len` (Python's `%` on ints is
Euclidean remainder, as Lean's `%` on Int). -/
def next_frame (decode : String → Bool) (s : AppState) : AppState :=
  if s.imagePaths = [] then s
  else display_frame decode s
    ((s.currentFrameIndex + 1) % (s.imagePaths.length : Int))

/-- Embeds `prev_frame` (lines 262-265). -/
def prev_frame (decode : String → Bool) (s : AppState) : AppState :=
  if s.imagePaths = [] then s
  else display_frame decode s
    ((s.currentFrameIndex - 1 + (s.imagePaths.length : Int)) %
      (s.imagePaths.length : Int))

/-- Embeds `animate` (lines 277-280): while playing, advance a frame and
schedule the next tick. -/
def animate (decode : String → Bool) (s : AppState) : AppState :=
  if s.isPlaying then
    let s1 := next_frame decode s
    { s1 with tickScheduled := true }
  else s

/-- Embeds `toggle_play_pause` (lines 267-275): when playing, stop and
cancel the pending tick; otherwise set playing and run `animate` (which
advances a frame and schedules a tick). There is no emptiness guard in the
source. -/
def toggle_play_pause (decode : String → Bool) (s : AppState) : AppState :=
  if s.isPlaying then
    { s with isPlaying := false, tickScheduled := false }
  else
    animate decode { s with isPlaying := true }

/-- Embeds `handle_fetch_results(run_time, paths)` (lines 217-232), minus
the progress-bar reset and widget packing: with a non-empty list, store the
run time and paths, set the index to -1, display frame 0 and enable the
animation controls; with an empty list, show the warning box and reset the
image label's text, leaving `image_paths`, `current_frame_index` and
`is_playing` untouched. Either way re-enable the fetch button. -/
def handle_fetch_results (decode : String → Bool) (s : AppState)
    (run_time : String) (paths : List String) : AppState :=
  if paths ≠ [] then
    let s1 : AppState := { s with
      modelRunTime := some run_time
      imagePaths := paths
      currentFrameIndex := -1 }
    let s2 := display_frame decode s1 0
    { s2 with controlsEnabled := true, fetchEnabled := true }
  else
    { s with warningShown := true, imageShown := none, fetchEnabled := true }

theorem display_frame_guard (decode : String → Bool) (s : AppState) (index : Int)
    (h : s.imagePaths = [] ∨ ¬(0 ≤ index ∧ index < (s.imagePaths.length : Int))) :
    display_frame decode s index = s := by
  simp only [display_frame, if_pos h]

/-- With a loaded sequence and an in-range index, display_frame commits the
index and slider position no matter how the try block turns out, and leaves
every navigation-unrelated control field alone. -/
theorem display_frame_in_range (decode : String → Bool) (s : AppState) (index : Int)
    (h0 : 0 ≤ index) (h1 : index < (s.imagePaths.length : Int)) :
    (display_frame decode s index).currentFrameIndex = index ∧
    (display_frame decode s index).sliderValue = index ∧
    (display_frame decode s index).imagePaths = s.imagePaths ∧
    (display_frame decode s index).modelRunTime = s.modelRunTime ∧
    (display_frame decode s index).isPlaying = s.isPlaying ∧
    (display_frame decode s index).controlsEnabled = s.controlsEnabled ∧
    (display_frame decode s index).tickScheduled = s.tickScheduled ∧
    (display_frame decode s index).warningShown = s.warningShown ∧
    (display_frame decode s index).fetchEnabled = s.fetchEnabled := by
  have hg : ¬(s.imagePaths = [] ∨ ¬(0 ≤ index ∧ index < (s.imagePaths.length : Int))) := by
    rintro (hnil | hnr)
    · rw [hnil] at h1; simp at h1; omega
    · exact hnr ⟨h0, h1⟩
  simp only [display_frame, if_neg hg]
  split_ifs <;> (try split) <;> simp_all

theorem next_frame_fields (decode : String → Bool) (s : AppState)
    (h : s.imagePaths ≠ []) :
    (next_frame decode s).currentFrameIndex =
      (s.currentFrameIndex + 1) % (s.imagePaths.length : Int) ∧
    (next_frame decode s).imagePaths = s.imagePaths := by
  have hlen : (0 : Int) < (s.imagePaths.length : Int) := by
    exact_mod_cast List.length_pos.mpr h
  have h0 : 0 ≤ (s.currentFrameIndex + 1) % (s.imagePaths.length : Int) :=
    Int.emod_nonneg _ (by omega)
  have h1 : (s.currentFrameIndex + 1) % (s.imagePaths.length : Int) <
      (s.imagePaths.length : Int) := Int.emod_lt_of_pos _ hlen
  simp only [next_frame, if_neg h]
  exact ⟨(display_frame_in_range decode s _ h0 h1).1,
    (display_frame_in_range decode s _ h0 h1).2.2.1⟩

theorem prev_frame_fields (decode : String → Bool) (s : AppState)
    (h : s.imagePaths ≠ []) :
    (prev_frame decode s).currentFrameIndex =
      (s.currentFrameIndex - 1 + (s.imagePaths.length : Int)) %
        (s.imagePaths.length : Int) ∧
    (prev_frame decode s).imagePaths = s.imagePaths := by
  have hlen : (0 : Int) < (s.imagePaths.length : Int) := by
    exact_mod_cast List.length_pos.mpr h
  have h0 : 0 ≤ (s.currentFrameIndex - 1 + (s.imagePaths.length : Int)) %
      (s.imagePaths.length : Int) := Int.emod_nonneg _ (by omega)
  have h1 : (s.currentFrameIndex - 1 + (s.imagePaths.length : Int)) %
      (s.imagePaths.length : Int) < (s.imagePaths.length : Int) :=
    Int.emod_lt_of_pos _ hlen
  simp only [prev_frame, if_neg h]
  exact ⟨(display_frame_in_range decode s _ h0 h1).1,
    (display_frame_in_range decode s _ h0 h1).2.2.1⟩

/-- Iterating next_frame k times from an in-range index: the sequence is
unchanged and the index advances by k modulo the length. -/
theorem next_frame_iterate (decode : String → Bool) (s : AppState)
    (h : s.imagePaths ≠ []) (h0 : 0 ≤ s.currentFrameIndex)
    (h1 : s.currentFrameIndex < (s.imagePaths.length : Int)) :
    ∀ k : Nat, ((next_frame decode)^[k] s).imagePaths = s.imagePaths ∧
      ((next_frame decode)^[k] s).currentFrameIndex =
        (s.currentFrameIndex + (k : Int)) % (s.imagePaths.length : Int) := by
  intro k
  induction k with
  | zero =>
    refine ⟨rfl, ?_⟩
    simp only [Function.iterate_zero, id_eq, Nat.cast_zero, add_zero]
    exact (Int.emod_eq_of_lt h0 h1).symm
  | succ k ihk =>
    obtain ⟨hpaths, hidx⟩ := ihk
    have hne : ((next_frame decode)^[k] s).imagePaths ≠ [] := by rw [hpaths]; exact h
    have hstep := next_frame_fields decode ((next_frame decode)^[k] s) hne
    rw [Function.iterate_succ_apply']
    refine ⟨by rw [hstep.2, hpaths], ?_⟩
    rw [hstep.1, hpaths, hidx, Int.emod_add_emod]
    congr 1
    push_cast
    ring

/-- C9: For every non-empty loaded sequence of length n and every in-range
currentIndex i, next() sets currentIndex to (i+1) mod n and prev() to
(i-1+n) mod n; applying next() n times returns to the starting index, and
prev() from index 0 yields n-1; on an empty sequence both are no-ops. -/
theorem c9_wraparound (decode : String → Bool) (s : AppState) :
    (s.imagePaths = [] → next_frame decode s = s ∧ prev_frame decode s = s) ∧
    (0 ≤ s.currentFrameIndex → s.currentFrameIndex < (s.imagePaths.length : Int) →
      (next_frame decode s).currentFrameIndex =
        (s.currentFrameIndex + 1) % (s.imagePaths.length : Int) ∧
      (prev_frame decode s).currentFrameIndex =
        (s.currentFrameIndex - 1 + (s.imagePaths.length : Int)) %
          (s.imagePaths.length : Int) ∧
      ((next_frame decode)^[s.imagePaths.length] s).currentFrameIndex =
        s.currentFrameIndex ∧
      (s.currentFrameIndex = 0 →
        (prev_frame decode s).currentFrameIndex = (s.imagePaths.length : Int) - 1)) := by
  constructor
  · intro hempty
    constructor <;> simp [next_frame, prev_frame, hempty]
  · intro h0 h1
    have hne : s.imagePaths ≠ [] := by
      intro hnil; rw [hnil] at h1; simp at h1; omega
    have hlen : (0 : Int) < (s.imagePaths.length : Int) := by
      exact_mod_cast List.length_pos.mpr hne
    refine ⟨(next_frame_fields decode s hne).1, (prev_frame_fields decode s hne).1, ?_, ?_⟩
    · rw [(next_frame_iterate decode s hne h0 h1 s.imagePaths.length).2]
      have hmod : (s.currentFrameIndex + (s.imagePaths.length : Int)) %
          (s.imagePaths.length : Int) = s.currentFrameIndex % (s.imagePaths.length : Int) := by
        conv_lhs =>
          rw [show s.currentFrameIndex + (s.imagePaths.length : Int) =
            s.currentFrameIndex + (s.imagePaths.length : Int) * 1 by ring]
        exact Int.add_mul_emod_self_left _ _ _
      rw [hmod, Int.emod_eq_of_lt h0 h1]
    · intro hz
      rw [(prev_frame_fields decode s hne).1, hz]
      have : (0 : Int) - 1 + (s.imagePaths.length : Int) = (s.imagePaths.length : Int) - 1 := by
        ring
      rw [this, Int.emod_eq_of_lt (by omega) (by omega)]

/-- A one-frame loaded state used as the concrete input of witnesses. -/
def s1ex : AppState :=
  { imagePaths := ["weather_images/gfs_2024010100_012_refcmp_conus.png"]
    modelRunTime := some "2024010100" }

/-- A three-frame loaded state used as the concrete input of witnesses. -/
def s3ex : AppState :=
  { imagePaths := ["weather_images/gfs_2024010100_000_refcmp_conus.png",
      "weather_images/gfs_2024010100_003_refcmp_conus.png",
      "weather_images/gfs_2024010100_006_refcmp_conus.png"]
    modelRunTime := some "2024010100" }

/-- Witness for C9 on a loaded three-frame sequence at index 0: three
next() calls wrap back to 0, and prev() from 0 lands on index 2. -/
theorem c9_wraparound_witness :
    ((next_frame (fun _ => true))^[s3ex.imagePaths.length] s3ex).currentFrameIndex =
      s3ex.currentFrameIndex ∧
    (prev_frame (fun _ => true) s3ex).currentFrameIndex =
      (s3ex.imagePaths.length : Int) - 1 :=
  ⟨((c9_wraparound (fun _ => true) s3ex).2 (by decide) (by decide)).2.2.1,
   ((c9_wraparound (fun _ => true) s3ex).2 (by decide) (by decide)).2.2.2 (by decide)⟩

/-- C10: For every sequence, every index and every outcome of opening or
decoding the image file, display_frame with an in-range index on a
non-empty sequence sets currentIndex (and the slider) to the target index
even when reading or decoding the file fails - the navigation change is not
rolled back on a display failure; and exactly the out-of-range or
empty-sequence cases leave the state (in particular currentIndex) unchanged. -/
theorem c10_display_frame (decode : String → Bool) (s : AppState) (index : Int) :
    ((s.imagePaths = [] ∨ ¬(0 ≤ index ∧ index < (s.imagePaths.length : Int))) →
      display_frame decode s index = s) ∧
    (0 ≤ index → index < (s.imagePaths.length : Int) →
      (display_frame decode s index).currentFrameIndex = index ∧
      (display_frame decode s index).sliderValue = index) := by
  refine ⟨display_frame_guard decode s index, fun h0 h1 => ?_⟩
  exact ⟨(display_frame_in_range decode s index h0 h1).1,
    (display_frame_in_range decode s index h0 h1).2.1⟩

/-- Witness for C10 with an always-failing decoder: the index is committed
although the image cannot be displayed, and an out-of-range call is the
identity. -/
theorem c10_display_frame_witness :
    (display_frame (fun _ => false) s1ex 0).currentFrameIndex = 0 ∧
    display_frame (fun _ => false) s1ex 5 = s1ex :=
  ⟨((c10_display_frame (fun _ => false) s1ex 0).2 (by decide) (by decide)).1,
   (c10_display_frame (fun _ => false) s1ex 5).1 (by decide)⟩

/-- Counterexample to C4 as stated: on the freshly initialized (Empty,
paused) state, invoking toggle_play_pause is not a no-op - isPlaying
becomes true and an animation tick is scheduled. (In the running GUI the
play button is disabled until a sequence loads, so the handler cannot fire
from the UI, but the handler itself has no emptiness guard.) -/
theorem c4_counterexample :
    (toggle_play_pause (fun _ => true) appInit).isPlaying = true ∧
    (toggle_play_pause (fun _ => true) appInit).tickScheduled = true := by decide

/-- C4 (amended): invoking toggle_play_pause in the Empty state while
paused sets isPlaying to true and schedules an animation tick; the tick's
next_frame is a no-op on the empty sequence, so currentIndex and the
(empty) sequence are unchanged. The UI reaches the no-op behaviour the
claim describes only by keeping the play button disabled while no sequence
is loaded. -/
theorem c4_play_on_empty (decode : String → Bool) (s : AppState)
    (hempty : s.imagePaths = []) (hpaused : s.isPlaying = false) :
    (toggle_play_pause decode s).isPlaying = true ∧
    (toggle_play_pause decode s).tickScheduled = true ∧
    (toggle_play_pause decode s).currentFrameIndex = s.currentFrameIndex ∧
    (toggle_play_pause decode s).imagePaths = [] := by
  simp [toggle_play_pause, animate, next_frame, hempty, hpaused]

/-- Witness for C4's amended statement at the initial state. -/
theorem c4_play_on_empty_witness :
    (toggle_play_pause (fun _ => false) appInit).isPlaying = true ∧
    (toggle_play_pause (fun _ => false) appInit).tickScheduled = true ∧
    (toggle_play_pause (fun _ => false) appInit).currentFrameIndex =
      appInit.currentFrameIndex ∧
    (toggle_play_pause (fun _ => false) appInit).imagePaths = [] :=
  c4_play_on_empty (fun _ => false) appInit rfl rfl

/-- A loaded, playing state: reachable by a successful fetch, pressing
play, then pressing the re-enabled fetch button (which disables the
widgets but leaves is_playing true while the new fetch runs). -/
def sLoaded : AppState :=
  { imagePaths := ["weather_images/old.png"]
    currentFrameIndex := 0
    modelRunTime := some "2023121812"
    isPlaying := true
    controlsEnabled := true }

/-- Counterexample to C3 as stated: handing an empty result to
handle_fetch_results leaves the prior sequence loaded (image_paths is not
cleared), and handing a non-empty result to a playing controller does not
force isPlaying to false. -/
theorem c3_counterexample :
    (handle_fetch_results (fun _ => true) sLoaded "2024010100" []).imagePaths =
      ["weather_images/old.png"] ∧
    (handle_fetch_results (fun _ => true) sLoaded "2024010100"
      ["weather_images/new.png"]).isPlaying = true := by decide

/-- C3 (amended): a non-empty result replaces the sequence, stores the new
run time, sets currentIndex to 0 and enables the animation controls, but
isPlaying is carried over from the prior state rather than forced to
paused; an empty result shows the failure warning and leaves the prior
sequence, index, run time and isPlaying untouched (the old frames stay
loaded); the fetch button is re-enabled either way. -/
theorem c3_load_sequence (decode : String → Bool) (s : AppState)
    (run_time : String) (paths : List String) :
    (handle_fetch_results decode s run_time paths).imagePaths =
      (if paths = [] then s.imagePaths else paths) ∧
    (handle_fetch_results decode s run_time paths).isPlaying = s.isPlaying ∧
    (handle_fetch_results decode s run_time paths).currentFrameIndex =
      (if paths = [] then s.currentFrameIndex else 0) ∧
    (handle_fetch_results decode s run_time paths).modelRunTime =
      (if paths = [] then s.modelRunTime else some run_time) ∧
    (handle_fetch_results decode s run_time paths).controlsEnabled =
      (if paths = [] then s.controlsEnabled else true) ∧
    (handle_fetch_results decode s run_time paths).warningShown =
      (if paths = [] then true else s.warningShown) ∧
    (handle_fetch_results decode s run_time paths).fetchEnabled = true := by
  by_cases hp : paths = []
  · simp [handle_fetch_results, hp]
  · have hlen : (0 : Int) < (paths.length : Int) := by
      exact_mod_cast List.length_pos.mpr hp
    have hfields := display_frame_in_range decode
      ({ s with
          modelRunTime := some run_time
          imagePaths := paths
          currentFrameIndex := -1 }) 0 (by omega) (by simpa using hlen)
    obtain ⟨hidx, hsl, hpa, hrt, hpl, hce, hts, hws, hfe⟩ := hfields
    simp only [handle_fetch_results, if_pos hp, if_neg hp]
    refine ⟨?_, ?_, ?_, ?_, ?_, ?_, ?_⟩ <;>
      simp_all

/-- The file the fetcher stores for the ecmwf_full frame of forecast hour 12
of the run initialized 2024-01-01T00:00Z. -/
def ecmwfPath : String := framePath "ecmwf_full" "2024010100" "refcmp" "conus" 12

/-- The controller state right after that fetch hands over the one-frame
sequence. -/
def ecmwfState : AppState :=
  { imagePaths := [ecmwfPath]
    modelRunTime := some "2024010100" }

/-- C1 (code bug, evaluated at the failing input): for model ecmwf_full the
underscore in the model identifier shifts `filename.split('_')`, so
display_frame's `parts[2]` is the run key "2024010100" instead of the hour
field "012"; `int` then yields 2024010100 and
`run_dt + timedelta(hours=2024010100)` overflows Python's datetime (year
9999 bound), the `except` clause fires, and no valid time is displayed at
all - instead of the claimed validTime = 2024-01-01T12:00Z. The third and
fourth conjuncts record the correctly parsed pieces the claim expects
(hour field "012" = 12; run key = absolute hour 17733240 =
24 * 738885 for 2024-01-01T00Z), the rest evaluate the code. -/
theorem c1_valid_time_bug :
    ecmwfPath = "weather_images/ecmwf_full_2024010100_012_refcmp_conus.png" ∧
    (pySplit '_' (basename ecmwfPath)).get? 2 = some "2024010100" ∧
    parseDigits "012" = some 12 ∧
    parseRunKey "2024010100" = some 17733240 ∧
    display_metadata (some "2024010100") ecmwfPath = none ∧
    (display_frame (fun _ => true) ecmwfState 0).errorShown = true ∧
    (display_frame (fun _ => true) ecmwfState 0).validTimeLabel = none ∧
    (display_frame (fun _ => true) ecmwfState 0).imageShown = none := by
  decide

end WeatherModels
